import Mathlib

/-!
Unified AI Frontend — response normalization / visualization mapping, verified.

Shallow embedding of the response-shaping pipeline of the `unified-ai-frontend`
repository:

* the chat Response Normalizer (`handleSubmit` / `handleSubmitMessage` in the
  chat interface component; both contain the same formatting chain),
* the Visualization Data Mapper (`parseEventAnalyticsResponse`,
  `parseStructuredApiResponse`, `parseApiResponseForVisualization` and
  `generateChartData` in `src/components/DataVisualization.tsx`),
* the chat proxy API route (`POST` in the `/api/chat` route handler).

JavaScript's loosely-typed JSON values are modelled by the inductive `Json`
below, with `undefined` as an explicit constructor (a missing object field
reads as `Json.undefined`).  Numbers are modelled as `Int`: every numeric field the
pipeline manipulates (counts, totals, epoch milliseconds, ids) is integral;
`NaN` — which arises only through `parseInt` — is modelled by `Option Int`
with `none` for `NaN`.  Runtime type errors (calling a method of `undefined`,
iterating a non-array) abort the surrounding JS handler; they are outside this
model: field access is total (`undefined` for a missing field) and iteration of a
non-array value yields the empty list.  Locale/timezone-dependent date
rendering (`Date.prototype.toLocaleString`) is modelled by a fixed injective
rendering of the `Date`'s constructor argument; `Number.prototype.toLocaleString`
is modelled exactly (en-US thousands grouping of integers).
-/

namespace UnifiedAI

/-- A JavaScript JSON-ish runtime value.  `undefined` models `undefined` (a missing
object field, an optional-chaining miss); `null` is JSON null.  Numbers are
integral (see the module comment). -/
inductive Json where
  | undefined : Json
  | null : Json
  | bool (b : Bool) : Json
  | num (n : Int) : Json
  | str (s : String) : Json
  | arr (elems : List Json) : Json
  | obj (fields : List (String × Json)) : Json

/-- JS truthiness: `undefined`, `null`, `false`, `0` and `""` are falsy; every
object and array (the empty array included) is truthy. -/
def Json.truthy : Json → Bool
  | .undefined => false
  | .null => false
  | .bool b => b
  | .num n => n != 0
  | .str s => s != ""
  | .arr _ => true
  | .obj _ => true

/-- Field lookup, `v[k]`: the first binding of `k` in an object (JS objects
cannot bind a key twice), `undefined` otherwise. -/
def Json.getField : Json → String → Json
  | .obj fields, k =>
    match fields.find? (fun kv => kv.1 == k) with
    | some kv => kv.2
    | none => .undefined
  | _, _ => .undefined

/-- JS `a || b`. -/
def jsOr (a b : Json) : Json := if a.truthy then a else b

/-- JS `v !== undefined`. -/
def Json.isDef : Json → Bool
  | .undefined => false
  | _ => true

/-- JS `typeof v === 'string'`. -/
def Json.isStr : Json → Bool
  | .str _ => true
  | _ => false

/-- The values destructuring (`const { ... } = v`) throws on: `null` and
`undefined`.  Every other value destructures (primitives are boxed). -/
def Json.isNullish : Json → Bool
  | .null => true
  | .undefined => true
  | _ => false

/-- JS strict equality against a string literal: true exactly for the same
string. -/
def jsEqStr (v : Json) (s : String) : Bool :=
  match v with
  | .str t => t == s
  | _ => false

/-- The element list of an array value.  A truthy non-array in an iteration
position would throw in JS (aborting the handler); the model iterates nothing. -/
def Json.asArray : Json → List Json
  | .arr xs => xs
  | _ => []

/-- The field list of an object value (insertion order, as `Object.entries`
yields it for non-integer-like keys). -/
def Json.asFields : Json → List (String × Json)
  | .obj fields => fields
  | _ => []

/-! ## Character-list string primitives

The scanning the source performs with JS regexes and string methods is
implemented here over `List Char`, so that every definition is structurally
recursive and evaluates inside the kernel. -/

/-- The whitespace class the source's `trim`/`\s` use (ASCII part). -/
def isWs (c : Char) : Bool :=
  c == ' ' || c == '\t' || c == '\n' || c == '\r'

def dropWsLeft (cs : List Char) : List Char := cs.dropWhile isWs

/-- JS `String.prototype.trim`. -/
def trimChars (cs : List Char) : List Char :=
  ((cs.dropWhile isWs).reverse.dropWhile isWs).reverse

def trimStr (s : String) : String := ⟨trimChars s.data⟩

/-- `replace(/_/g, ' ')`. -/
def underscoresToSpaces (s : String) : String :=
  ⟨s.data.map (fun c => if c == '_' then ' ' else c)⟩

/-- JS `toLowerCase` (ASCII letters, which is all the queries contain). -/
def toLowerStr (s : String) : String := ⟨s.data.map Char.toLower⟩

/-- JS `\w`: ASCII letter, digit or underscore. -/
def isWordChar (c : Char) : Bool := c.isAlphanum || c == '_'

/-- `replace(/\b\w/g, l => l.toUpperCase())`: upper-case each character that
starts a maximal word-character run. -/
def titleCaseGo : Bool → List Char → List Char
  | _, [] => []
  | prevWord, c :: cs =>
    (if !prevWord && isWordChar c then c.toUpper else c) :: titleCaseGo (isWordChar c) cs

def titleCaseJS (s : String) : String := ⟨titleCaseGo false s.data⟩

/-- Split on `'\n'`, JS `split('\n')`. -/
def splitLinesGo (cur : List Char) : List Char → List (List Char)
  | [] => [cur.reverse]
  | c :: cs =>
    if c == '\n' then cur.reverse :: splitLinesGo [] cs
    else splitLinesGo (c :: cur) cs

def splitLines (s : String) : List String :=
  (splitLinesGo [] s.data).map (fun cs => (⟨cs⟩ : String))

/-- Substring test, JS `String.prototype.includes`. -/
def leadsWith : List Char → List Char → Bool
  | [], _ => true
  | _ :: _, [] => false
  | a :: as_, b :: bs => a == b && leadsWith as_ bs

def hasSub (needle : List Char) : List Char → Bool
  | [] => needle.isEmpty
  | c :: cs => leadsWith needle (c :: cs) || hasSub needle cs

def strIncludes (hay needle : String) : Bool := hasSub needle.data hay.data

/-! ## Number rendering and parsing -/

/-- Decimal digits of a natural number via the standard library printer (the
JS rendering of the integral numbers this pipeline handles). -/
def natDec (n : Nat) : String := Nat.repr n

def intDec (n : Int) : String :=
  if n < 0 then "-" ++ natDec n.natAbs else natDec n.natAbs

/-- Insert a comma after every third digit of a reversed digit list. -/
def group3 : List Char → List Char
  | a :: b :: c :: d :: rest => a :: b :: c :: ',' :: group3 (d :: rest)
  | l => l

/-- en-US thousands grouping of a digit string. -/
def commaGroup (s : String) : String := ⟨(group3 s.data.reverse).reverse⟩

/-- `Number.prototype.toLocaleString` for an integral number. -/
def intToLocale (n : Int) : String :=
  if n < 0 then "-" ++ commaGroup (natDec n.natAbs) else commaGroup (natDec n.natAbs)

/-- `toLocaleString` of a possibly-NaN number (`none` is `NaN`). -/
def optToLocale : Option Int → String
  | some n => intToLocale n
  | none => "NaN"

def isDigitChar (c : Char) : Bool := '0' ≤ c && c ≤ '9'

def takeDigits (cs : List Char) : List Char × List Char :=
  match cs with
  | [] => ([], [])
  | c :: rest =>
    if isDigitChar c then
      let (ds, tail) := takeDigits rest
      (c :: ds, tail)
    else ([], cs)

def digitsToNat (ds : List Char) : Nat :=
  ds.foldl (fun a c => a * 10 + (c.toNat - 48)) 0

/-- JS `parseInt` on a string (decimal: leading whitespace, optional sign,
leading digit run; `NaN` — `none` — when no digit leads).  The `0x` radix
prefix is not modelled; no payload field of this pipeline carries one. -/
def parseIntStr (s : String) : Option Int :=
  match dropWsLeft s.data with
  | '-' :: rest =>
    let (ds, _) := takeDigits rest
    if ds.isEmpty then none else some (-(digitsToNat ds : Int))
  | '+' :: rest =>
    let (ds, _) := takeDigits rest
    if ds.isEmpty then none else some (digitsToNat ds : Int)
  | cs =>
    let (ds, _) := takeDigits cs
    if ds.isEmpty then none else some (digitsToNat ds : Int)

/-! ## JS string conversion of values

`String(v)` / template-literal interpolation.  The array case (JS joins the
elements with commas, rendering `null`/`undefined` elements as empty) needs
non-structural recursion through nested arrays, so it lives in the separate
well-founded `jsArrElemDisp`; the top-level dispatch stays structural. -/

/-- Display of one array element inside `Array.prototype.toString` (recursive:
nested arrays are flattened by JS's join). -/
def jsArrElemDisp (v : Json) : String :=
  match v with
  | .undefined => ""
  | .null => ""
  | .bool b => if b then "true" else "false"
  | .num n => intDec n
  | .str s => s
  | .arr xs => String.intercalate "," (xs.attach.map (fun x => jsArrElemDisp x.1))
  | .obj _ => "[object Object]"
termination_by sizeOf v
decreasing_by
  have hmem := List.sizeOf_lt_of_mem x.2
  simp only [Json.arr.sizeOf_spec]
  omega

/-- `String(v)` — the coercion template literals apply. -/
def jsToString : Json → String
  | .undefined => "undefined"
  | .null => "null"
  | .bool b => if b then "true" else "false"
  | .num n => intDec n
  | .str s => s
  | .arr xs => String.intercalate "," (xs.map jsArrElemDisp)
  | .obj _ => "[object Object]"

/-- JS `parseInt(v)` for an arbitrary value: `parseInt` coerces its argument
to a string first; for the integral numbers of this model that round-trips to
the number itself. -/
def parseIntJS : Json → Option Int
  | .num n => some n
  | v => parseIntStr (jsToString v)

/-- `v.toLocaleString()` where the source expects `v` to be a number.  A
number is rendered with grouping; a string renders as itself
(`String.prototype.toLocaleString`); `undefined`/`null` would throw in JS
(outside the model, rendered by their coercion). -/
def valToLocale : Json → String
  | .num n => intToLocale n
  | .str s => s
  | v => jsToString v

/-- `v?.toLocaleString() || 0` as interpolated into a template: a nullish `v`
short-circuits to `undefined`, which `|| 0` replaces by `0`; an empty-string
rendering is likewise falsy and replaced by `0`. -/
def optChainLocale : Json → String
  | .undefined => "0"
  | .null => "0"
  | v => let t := valToLocale v; if t == "" then "0" else t

/-- `new Date(x).toLocaleString()`.  Locale and timezone are runtime
environment, not source code; the model renders the `Date`'s constructor
argument deterministically and injectively. -/
def dateToLocaleString (v : Json) : String := "Date(" ++ jsToString v ++ ")"

/-- `new Date(x).toLocaleDateString()`, modelled like `dateToLocaleString`. -/
def dateToLocaleDateString (v : Json) : String := "DateOnly(" ++ jsToString v ++ ")"

/-- JS `acc + v` for a numeric accumulator, with `none` for `NaN`: adding a
non-number (`undefined`, an object, …) poisons the sum.  (A string operand
would switch JS to concatenation; no claim exercises that, and the sums the
source builds are over numeric fields.) -/
def jsAddNum (acc : Option Int) (v : Json) : Option Int :=
  match acc, v with
  | some a, .num n => some (a + n)
  | _, _ => none

/-- JS `x > 0` on a possibly-NaN number (`NaN > 0` is false). -/
def jsPos : Option Int → Bool
  | some n => decide (0 < n)
  | none => false

/-- JS `x` truthiness for a possibly-NaN number (`0` and `NaN` are falsy). -/
def jsNumTruthy : Option Int → Bool
  | some n => n != 0
  | none => false

/-- JS `a > b` on possibly-NaN numbers (false whenever either is `NaN`). -/
def jsGtNum : Option Int → Option Int → Bool
  | some a, some b => decide (b < a)
  | _, _ => false

/-! ## Visualization Data Mapper (`src/components/DataVisualization.tsx`)

`EventData` is the component's record interface; `count` is `Option Int`
(`none` = `NaN`), `source` the raw JS value the source stores, and the three
optional fields are `none` when the producing path leaves them `undefined`. -/

structure EventData where
  name : String
  count : Option Int
  source : Json
  uniqueContacts : Option Json
  firstEvent : Option Json
  lastEvent : Option Json

/-- The component's `VisualizationData` state (the `data.events` nesting is
flattened into `events`). -/
structure VisualizationData where
  vtype : String
  events : List EventData
  organizationScope : String
  timeframe : Json

/-- `count` as the comparator `(a, b) => b.count - a.count` reads it (the
filtered lists this is applied to contain no `NaN`). -/
def countD (o : Option Int) : Int := o.getD 0

/-- Descending-by-count order for `Array.prototype.sort((a, b) => b.count - a.count)`. -/
def evRel (a b : EventData) : Prop := countD b.count ≤ countD a.count

instance : DecidableRel evRel := fun a b =>
  inferInstanceAs (Decidable (countD b.count ≤ countD a.count))

instance : IsTotal EventData evRel :=
  ⟨fun a b => Int.le_total (countD b.count) (countD a.count)⟩

instance : IsTrans EventData evRel :=
  ⟨fun _ _ _ hab hbc => le_trans hbc hab⟩

/-- The in-place `events.sort((a, b) => b.count - a.count)` (a stable
comparison sort; only the resulting order and multiset matter here). -/
def sortEventsDesc (l : List EventData) : List EventData := List.insertionSort evRel l

/-- The entry-to-record map of `parseEventAnalyticsResponse`. -/
def analyticsRecordOf (item : Json) : EventData :=
  { name := underscoresToSpaces (jsToString (jsOr (item.getField "event_name") (.str "Unknown Event")))
    count := parseIntJS (jsOr (item.getField "total_events") (.num 0))
    source := jsOr (item.getField "event_source") (.str "unknown")
    uniqueContacts := some (jsOr (item.getField "unique_contacts") (.num 0))
    firstEvent := if (item.getField "first_event").truthy then some (item.getField "first_event") else none
    lastEvent := if (item.getField "last_event").truthy then some (item.getField "last_event") else none }

/-- `parseEventAnalyticsResponse(results)`: `none` models
`setVisualizationData(null)`, `some v` models `setVisualizationData(v)`.
A missing/falsy/non-array `analytics` sets null; otherwise entries are mapped,
records with non-positive (or `NaN`) count dropped, and a non-empty survivor
list is sorted descending by count. -/
def parseEventAnalyticsResponse (results : Json) : Option VisualizationData :=
  match results.getField "analytics" with
  | .arr entries =>
    let events := (entries.map analyticsRecordOf).filter (fun ev => jsPos ev.count)
    if events.isEmpty then none
    else some
      { vtype := "analytics"
        events := sortEventsDesc events
        organizationScope := if (results.getField "organization_id").truthy then "specific" else "global"
        timeframe := jsOr (results.getField "timeframe") (.str "7d") }
  | _ => none

/-- The `source_analytics` row map of `parseStructuredApiResponse`. -/
def sourceRecordOf (item : Json) : EventData :=
  { name := underscoresToSpaces (jsToString (jsOr (item.getField "source") (.str "Unknown Source")))
    count := parseIntJS (jsOr (item.getField "total_events") (jsOr (item.getField "count") (.num 0)))
    source := jsOr (item.getField "source") (.str "unknown")
    uniqueContacts := none
    firstEvent := none
    lastEvent := none }

/-- The default (event analytics) row map of `parseStructuredApiResponse`. -/
def structuredRecordOf (item : Json) : EventData :=
  { name := underscoresToSpaces (jsToString (jsOr (item.getField "event_name")
      (jsOr (item.getField "name") (.str "Unknown"))))
    count := parseIntJS (jsOr (item.getField "event_count") (jsOr (item.getField "count") (.num 0)))
    source := jsOr (item.getField "source") (.str "unknown")
    uniqueContacts := none
    firstEvent := none
    lastEvent := none }

/-- `query.toLowerCase()`-based timeframe extraction (`extractTimeframe`). -/
def extractTimeframe (query : String) : String :=
  let lq := toLowerStr query
  if strIncludes lq "24 hours" || strIncludes lq "1 day" then "1d"
  else if strIncludes lq "3 days" then "3d"
  else if strIncludes lq "7 days" || strIncludes lq "week" then "7d"
  else "7d"

/-- `parseStructuredApiResponse(results)`; the component's `query` state read
by `results.timeframe?.original || extractTimeframe(query)` is passed in. -/
def parseStructuredApiResponse (results : Json) (query : String) : Option VisualizationData :=
  match results.getField "analyticsData" with
  | .arr items =>
    let queryType := jsOr (results.getField "queryType") (.str "count_by_type")
    let events :=
      if jsEqStr queryType "source_analytics" then
        (items.map sourceRecordOf).filter (fun ev => jsPos ev.count)
      else
        (items.map structuredRecordOf).filter (fun ev => jsPos ev.count)
    if events.isEmpty then none
    else some
      { vtype := "analytics"
        events := sortEventsDesc events
        organizationScope := if (results.getField "organizationId").truthy then "specific" else "global"
        timeframe :=
          jsOr
            (match results.getField "timeframe" with
             | .undefined => .undefined
             | .null => .undefined
             | tf => tf.getField "original")
            (.str (extractTimeframe query)) }
  | _ => none

/-! ### Free-text narration parsing (`parseApiResponseForVisualization`) -/

/-- The in-progress `currentEvent` of the narration scanner (`none` models the
initial `{}` whose `name` reads as `undefined`). -/
structure CurEv where
  name : String
  source : String
  count : Option Int

/-- Match a literal at the head of the input, returning the rest. -/
def expectLit : List Char → List Char → Option (List Char)
  | [], cs => some cs
  | _ :: _, [] => none
  | l :: ls, c :: cs => if l == c then expectLit ls cs else none

/-- The header regex `^\d+\.\s*\*\*([^*]+)\*\*\s*\(Source:\s*([^)]+)\)`
applied to a trimmed line: yields the raw name and source captures. -/
def parseEventHeader (cs : List Char) : Option (String × String) :=
  let (ds, r1) := takeDigits cs
  if ds.isEmpty then none
  else
    match r1 with
    | '.' :: r2 =>
      match (r2.dropWhile isWs) with
      | '*' :: '*' :: r4 =>
        let name := r4.takeWhile (fun c => c != '*')
        let r5 := r4.dropWhile (fun c => c != '*')
        if name.isEmpty then none
        else
          match r5 with
          | '*' :: '*' :: r6 =>
            match (r6.dropWhile isWs) with
            | '(' :: r8 =>
              match expectLit "Source:".data r8 with
              | some r9 =>
                let r10 := r9.dropWhile isWs
                let src := r10.takeWhile (fun c => c != ')')
                let r11 := r10.dropWhile (fun c => c != ')')
                if src.isEmpty then none
                else
                  match r11 with
                  | ')' :: _ => some ((⟨name⟩ : String), (⟨src⟩ : String))
                  | _ => none
              | none => none
            | _ => none
          | _ => none
      | _ => none
    | _ => none

/-- The digits of the capture `\d+(?:,\d+)*` once its commas are stripped
(which is all `parseInt(countMatch[1].replace(/,/g, ''))` uses).  State `true`
means the previous character was a digit, so a comma may follow. -/
def numRun : Bool → List Char → List Char
  | _, [] => []
  | true, c :: cs =>
    if isDigitChar c then c :: numRun true cs
    else if c == ',' then numRun false cs
    else []
  | false, c :: cs => if isDigitChar c then c :: numRun true cs else []

/-- The count regex `^\s*-\s*Events:\s*(\d+(?:,\d+)*)` applied to a trimmed
line: the parsed count (never `NaN`: the capture is all digits). -/
def parseCountLine (cs : List Char) : Option Nat :=
  match cs.dropWhile isWs with
  | '-' :: r1 =>
    match expectLit "Events:".data (r1.dropWhile isWs) with
    | some r2 =>
      match r2.dropWhile isWs with
      | c :: rest =>
        if isDigitChar c then some (digitsToNat (numRun false (c :: rest))) else none
      | [] => none
    | none => none
  | _ => none

/-- `if (currentEvent.name && currentEvent.count) events.push(currentEvent)`. -/
def pushCompleted (evts : List EventData) (cur : Option CurEv) : List EventData :=
  match cur with
  | some c =>
    if c.name != "" && jsNumTruthy c.count then
      evts ++ [{ name := c.name, count := c.count, source := .str c.source,
                 uniqueContacts := none, firstEvent := none, lastEvent := none }]
    else evts
  | none => evts

/-- One iteration of the narration scanner's `for (const line of lines)`. -/
def scanStep (st : List EventData × Option CurEv) (line : String) :
    List EventData × Option CurEv :=
  let t := trimChars line.data
  if t.isEmpty then st
  else
    match parseEventHeader t with
    | some (nm, src) =>
      (pushCompleted st.1 st.2,
       some { name := underscoresToSpaces (⟨trimChars nm.data⟩ : String)
              source := (⟨trimChars src.data⟩ : String)
              count := some 0 })
    | none =>
      match parseCountLine t with
      | some k =>
        match st.2 with
        | some c =>
          if c.name != "" then
            (if 0 < k then (st.1, some { c with count := some (k : Int) }) else st)
          else st
        | none => st
      | none => st

/-- The raw (pre-deduplication) record list the narration scanner pushes,
with the trailing `currentEvent` flushed after the loop. -/
def narrationRaw (resp : String) : List EventData :=
  let st := (splitLines resp).foldl scanStep ([], none)
  pushCompleted st.1 st.2

/-- Replace the first record named like `cur` (the source's
`acc[acc.indexOf(existing)] = current`). -/
def replaceFirstByName : List EventData → EventData → List EventData
  | [], _ => []
  | e :: es, cur =>
    if e.name == cur.name then cur :: es else e :: replaceFirstByName es cur

/-- One step of the `reduce` that removes duplicate names, keeping the record
with the strictly higher count. -/
def dedupStep (acc : List EventData) (cur : EventData) : List EventData :=
  match acc.find? (fun e => e.name == cur.name) with
  | none => acc ++ [cur]
  | some existing =>
    if jsGtNum cur.count existing.count then replaceFirstByName acc cur else acc

def dedupEvents (l : List EventData) : List EventData := l.foldl dedupStep []

/-- `parseApiResponseForVisualization(response)`, the last-resort free-text
path; the component's `query` state it reads is passed in.  `none` models
`setVisualizationData(null)`. -/
def parseApiResponseForVisualization (resp : String) (query : String) :
    Option VisualizationData :=
  let uniqueEvents := dedupEvents (narrationRaw resp)
  if uniqueEvents.isEmpty then none
  else some
    { vtype := "analytics"
      events := sortEventsDesc uniqueEvents
      organizationScope := if strIncludes (toLowerStr query) "client" then "specific" else "global"
      timeframe := .str (extractTimeframe query) }

/-! ### Chart rendering (`generateChartData` and the table body) -/

/-- The component's `activeChart` selector (the `pie` button renders the
doughnut chart). -/
inductive ChartType where
  | bar : ChartType
  | line : ChartType
  | pie : ChartType
  | table : ChartType
deriving DecidableEq

/-- The labels/dataset pair `generateChartData` hands to Chart.js (colors and
styling dropped: presentation only). -/
structure ChartData where
  labels : List String
  data : List (Option Int)

/-- `generateChartData()`: `null` without data; otherwise the record list
truncated to the top 15 (pie/doughnut) or top 20 (bar/line) records. -/
def generateChartData (activeChart : ChartType) (viz : Option VisualizationData) :
    Option ChartData :=
  match viz with
  | none => none
  | some v =>
    if v.events.isEmpty then none
    else
      let maxEvents := if activeChart = ChartType.pie then 15 else 20
      let eventData := v.events.take maxEvents
      some { labels := eventData.map (fun item => item.name)
             data := eventData.map (fun item => item.count) }

/-- The rows the table view iterates
(`visualizationData?.data?.events?.map(...) || []`): the full, untruncated
record list. -/
def tableRows (viz : Option VisualizationData) : List EventData :=
  match viz with
  | some v => v.events
  | none => []

/-! ## Response Normalizer (chat interface)

`handleSubmit` and `handleSubmitMessage` contain the same response-formatting
chain (the only difference is a local variable name and a window-callback side
effect in the analytics branch of one of them); `responseContentOf` embeds it
once for both. -/

/-- Per-event accumulator of the trends grouping (`eventGroups[key]`); only
the length of the pushed `hours` array is ever read, so it is kept as a
count. -/
structure TrendGroup where
  source : Json
  count : Option Int
  hours : Nat

/-- Add `event_count`/`hour` of one trend row to its (first matching) group. -/
def bumpGroup : List (String × TrendGroup) → String → Json → List (String × TrendGroup)
  | [], _, _ => []
  | (k, g) :: rest, key, t =>
    if k == key then
      (k, { g with count := jsAddNum g.count (t.getField "event_count"),
                   hours := g.hours + 1 }) :: rest
    else (k, g) :: bumpGroup rest key t

/-- One iteration of `data.results.trends.forEach(...)`: create the group on
first sight of the (string-coerced) `event_name` key, then accumulate. -/
def addTrend (groups : List (String × TrendGroup)) (t : Json) :
    List (String × TrendGroup) :=
  let key := jsToString (t.getField "event_name")
  match groups.find? (fun kv => kv.1 == key) with
  | none =>
    bumpGroup (groups ++ [(key, { source := t.getField "event_source", count := some 0, hours := 0 })]) key t
  | some _ => bumpGroup groups key t

/-- `eventGroups` in insertion order, as `Object.entries` then yields it. -/
def groupTrends (trends : List Json) : List (String × TrendGroup) :=
  trends.foldl addTrend []

/-- The `get_event_trends` branch's markdown. -/
def renderTrends (d : Json) : Json :=
  let results := d.getField "results"
  let groups := groupTrends (results.getField "trends").asArray
  .str ("📈 **Event Trends**\n\n"
    ++ jsToString (d.getField "message") ++ "\n\n"
    ++ "**Summary:**\n"
    ++ "• Organization ID: " ++ jsToString (results.getField "organization_id") ++ "\n"
    ++ "• Timeframe: " ++ jsToString (results.getField "timeframe") ++ "\n"
    ++ "• Total Data Points: " ++ jsToString (results.getField "total_rows") ++ "\n\n"
    ++ "**Event Breakdown:**\n"
    ++ String.join (groups.enum.map (fun p =>
         natDec (p.1 + 1) ++ ". **" ++ p.2.1 ++ "** (" ++ jsToString p.2.2.source ++ ")\n"
         ++ "   • Total Events: " ++ optToLocale p.2.2.count ++ "\n"
         ++ "   • Data Points: " ++ natDec p.2.2.hours ++ "\n\n"))
    ++ "*Analysis generated: " ++ dateToLocaleString (d.getField "timestamp") ++ "*")

/-- The `get_event_analytics` branch's markdown (total events / unique
contacts are `reduce` sums over all entries). -/
def renderAnalytics (d : Json) : Json :=
  let results := d.getField "results"
  let entries := (results.getField "analytics").asArray
  let totalEvents := entries.foldl (fun acc it => jsAddNum acc (it.getField "total_events")) (some 0)
  let totalContacts := entries.foldl (fun acc it => jsAddNum acc (it.getField "unique_contacts")) (some 0)
  .str ("📊 **Event Analytics Results**\n\n"
    ++ jsToString (d.getField "message") ++ "\n\n"
    ++ "**Summary:**\n"
    ++ "• Organization ID: " ++ jsToString (results.getField "organization_id") ++ "\n"
    ++ "• Timeframe: " ++ jsToString (results.getField "timeframe") ++ "\n"
    ++ "• Total Event Types: " ++ jsToString (results.getField "total_event_types") ++ "\n"
    ++ "• Total Events: " ++ optToLocale totalEvents ++ "\n"
    ++ "• Total Unique Contacts: " ++ optToLocale totalContacts ++ "\n\n"
    ++ "**Event Breakdown:**\n"
    ++ String.join (entries.enum.map (fun p =>
         natDec (p.1 + 1) ++ ". **" ++ jsToString (p.2.getField "event_name")
         ++ "** (" ++ jsToString (p.2.getField "event_source") ++ ")\n"
         ++ "   • Total Events: " ++ valToLocale (p.2.getField "total_events") ++ "\n"
         ++ "   • Unique Contacts: " ++ valToLocale (p.2.getField "unique_contacts") ++ "\n"
         ++ "   • Date Range: " ++ dateToLocaleDateString (p.2.getField "first_event")
         ++ " - " ++ dateToLocaleDateString (p.2.getField "last_event") ++ "\n\n"))
    ++ "*Analysis generated: " ++ dateToLocaleString (d.getField "timestamp") ++ "*")

/-- The `results.answer.summary` branch: the summary value, plus optional
statistics / analytics / trends / processing-time blocks.  When no block is
appended the raw summary value itself is the content (JS only coerces it to a
string at the first `+=`). -/
def renderAnswer (d : Json) : Json :=
  let results := d.getField "results"
  let ans := results.getField "answer"
  let st := ans.getField "statistics"
  let statsPart :=
    if st.truthy then
      "\n\n**Statistics:**\n"
      ++ (if (st.getField "total_events").isDef then
            "• Total Events: " ++ jsToString (st.getField "total_events") ++ "\n" else "")
      ++ (if (st.getField "unique_event_types").isDef then
            "• Unique Event Types: " ++ jsToString (st.getField "unique_event_types") ++ "\n" else "")
      ++ (if (st.getField "unique_sources").isDef then
            "• Unique Sources: " ++ jsToString (st.getField "unique_sources") ++ "\n" else "")
      ++ (if (st.getField "data_points").isDef then
            "• Data Points: " ++ jsToString (st.getField "data_points") ++ "\n" else "")
    else ""
  let analyticsPart :=
    match results.getField "analyticsData" with
    | .arr (x :: xs) =>
      "\n\n**Event Types Found:**\n"
      ++ String.join ((x :: xs).map (fun it =>
           if (it.getField "raw_data").truthy then
             "• " ++ jsToString (it.getField "raw_data") ++ "\n" else ""))
    | _ => ""
  let trendsPart :=
    match results.getField "trendsData" with
    | .arr (x :: xs) => "\n\n**Trend Data Points:** " ++ natDec (x :: xs).length ++ " entries"
    | _ => ""
  let procPart :=
    if (results.getField "processingTimeHuman").truthy then
      "\n\n*Processing time: " ++ jsToString (results.getField "processingTimeHuman") ++ "*"
    else ""
  let suffix := statsPart ++ analyticsPart ++ trendsPart ++ procPart
  if suffix == "" then ans.getField "summary"
  else .str (jsToString (ans.getField "summary") ++ suffix)

/-- The `get_workflow_execution_statistics` branch's markdown. -/
def renderWorkflow (d : Json) : Json :=
  let results := d.getField "results"
  .str ("📊 **Workflow Execution Statistics**\n\n"
    ++ jsToString (d.getField "message") ++ "\n\n"
    ++ "**Details:**\n"
    ++ "• Organization ID: " ++ jsToString (results.getField "organization_id") ++ "\n"
    ++ "• Workflow ID: " ++ jsToString (results.getField "workflow_id") ++ "\n"
    ++ (if (results.getField "execution_type").truthy then
          "• Execution Type: " ++ jsToString (results.getField "execution_type") ++ "\n" else "")
    ++ (if (results.getField "timeframe").truthy then
          "• Timeframe: " ++ jsToString (results.getField "timeframe") ++ "\n" else "")
    ++ "\n**Results:**\n"
    ++ "• Total Logs: " ++ optChainLocale (results.getField "total_logs") ++ "\n"
    ++ "• Unique Contacts: " ++ optChainLocale (results.getField "unique_contacts") ++ "\n"
    ++ (if (results.getField "entry_events").isDef then
          "• Entry Events: " ++ optChainLocale (results.getField "entry_events") ++ "\n" else "")
    ++ (if (results.getField "summary").truthy then
          "\n**Summary:** " ++ jsToString (results.getField "summary") else "")
    ++ "\n\n*Analysis generated: " ++ dateToLocaleString (d.getField "timestamp") ++ "*")

/-- `key.replace(/_/g, ' ').replace(/\b\w/g, l => l.toUpperCase())`. -/
def titleKey (k : String) : String := titleCaseJS (underscoresToSpaces k)

/-- The generic `results.summary` branch: title-cased tool name, the summary,
and a bullet for every other primitive-valued field of `results`. -/
def renderGeneric (d : Json) : Json :=
  let results := d.getField "results"
  let title :=
    if (d.getField "tool_executed").truthy then
      titleKey (jsToString (d.getField "tool_executed"))
    else "Analysis"
  .str ("📊 **" ++ title ++ " Results**\n\n"
    ++ jsToString (d.getField "message") ++ "\n\n"
    ++ "**Summary:** " ++ jsToString (results.getField "summary") ++ "\n\n"
    ++ String.join (results.asFields.map (fun kv =>
         if kv.1 != "tool" && kv.1 != "summary" then
           match kv.2 with
           | .num n => "• " ++ titleKey kv.1 ++ ": " ++ intToLocale n ++ "\n"
           | .str s => "• " ++ titleKey kv.1 ++ ": " ++ s ++ "\n"
           | .bool b => "• " ++ titleKey kv.1 ++ ": " ++ (if b then "true" else "false") ++ "\n"
           | _ => ""
         else ""))
    ++ "\n*Analysis generated: " ++ dateToLocaleString (d.getField "timestamp") ++ "*")

/-- The last-resort fallback `data.result || data.response || data.message`. -/
def renderFallback (d : Json) : Json :=
  jsOr (d.getField "result") (jsOr (d.getField "response") (d.getField "message"))

/-- The `success === false` line `❌ **Error**: ${data.error}`. -/
def renderError (d : Json) : Json :=
  .str ("❌ **Error**: " ++ jsToString (d.getField "error"))

/-- Branch (a): `data.results && data.results.formattedMessage`. -/
def guardFormatted (d : Json) : Bool :=
  (d.getField "results").truthy && ((d.getField "results").getField "formattedMessage").truthy

/-- Branch (b): `data.tool_executed === 'get_event_trends' && data.results && data.results.trends`. -/
def guardTrends (d : Json) : Bool :=
  jsEqStr (d.getField "tool_executed") "get_event_trends"
    && (d.getField "results").truthy && ((d.getField "results").getField "trends").truthy

/-- Branch (c): `data.tool_executed === 'get_event_analytics' && data.results && data.results.analytics`. -/
def guardAnalytics (d : Json) : Bool :=
  jsEqStr (d.getField "tool_executed") "get_event_analytics"
    && (d.getField "results").truthy && ((d.getField "results").getField "analytics").truthy

/-- Branch (d): `data.results && data.results.answer && data.results.answer.summary`. -/
def guardAnswer (d : Json) : Bool :=
  (d.getField "results").truthy && ((d.getField "results").getField "answer").truthy
    && (((d.getField "results").getField "answer").getField "summary").truthy

/-- Branch (e): `data.tool_executed === 'get_workflow_execution_statistics' && data.results`. -/
def guardWorkflow (d : Json) : Bool :=
  jsEqStr (d.getField "tool_executed") "get_workflow_execution_statistics"
    && (d.getField "results").truthy

/-- Branch (f): `data.results && data.results.summary`. -/
def guardSummary (d : Json) : Bool :=
  (d.getField "results").truthy && ((d.getField "results").getField "summary").truthy

/-- The Response Normalizer: the `responseContent` the chat handlers compute
from one backend payload — the error line when `success` is falsy, otherwise
the first matching branch of the fixed `if`/`else if` chain. -/
def responseContentOf (d : Json) : Json :=
  if (d.getField "success").truthy then
    if guardFormatted d then (d.getField "results").getField "formattedMessage"
    else if guardTrends d then renderTrends d
    else if guardAnalytics d then renderAnalytics d
    else if guardAnswer d then renderAnswer d
    else if guardWorkflow d then renderWorkflow d
    else if guardSummary d then renderGeneric d
    else renderFallback d
  else renderError d

/-- The AI chat `Message` the handlers append (`id` from `Date.now() + 1`,
`timestamp` from `new Date()`). -/
structure AiMessage where
  id : String
  content : Json
  msgType : String
  timestamp : Int
  status : String

/-- Building the AI message at wall-clock instant `now` (the argument models
`Date.now()` / `new Date()`; only `id` and `timestamp` consult it). -/
def aiMessageOf (now : Int) (d : Json) : AiMessage :=
  { id := intDec (now + 1)
    content := responseContentOf d
    msgType := "ai"
    timestamp := now
    status := if (d.getField "success").truthy then "success" else "error" }

/-! ## `DataVisualization.handleSubmit` response handling -/

/-- What one run of the `DataVisualization` submit handler does with a parsed
backend payload: the `apiResponse` text it stores, and — when a Mapper path
runs — the visualization value passed to `setVisualizationData`
(`vizUpdate = none` means no Mapper path was invoked at all). -/
structure DvOutcome where
  apiResponse : Json
  vizUpdate : Option (Option VisualizationData)

/-- The detailed event-analytics text the handler builds before invoking the
Mapper. -/
def dvAnalyticsText (d : Json) : String :=
  let results := d.getField "results"
  let entries := (results.getField "analytics").asArray
  "📊 **Event Analytics Results**\n\n" ++ jsToString (d.getField "message") ++ "\n\n"
  ++ "**Organization:** " ++ jsToString (results.getField "organization_id") ++ "\n"
  ++ "**Timeframe:** " ++ jsToString (results.getField "timeframe") ++ "\n"
  ++ "**Total Event Types:** " ++ jsToString (results.getField "total_event_types") ++ "\n\n"
  ++ "**Event Breakdown:**\n"
  ++ String.join (entries.enum.map (fun p =>
       natDec (p.1 + 1) ++ ". **" ++ jsToString (p.2.getField "event_name")
       ++ "** (" ++ jsToString (p.2.getField "event_source") ++ "): "
       ++ valToLocale (p.2.getField "total_events") ++ " events, "
       ++ valToLocale (p.2.getField "unique_contacts") ++ " unique contacts\n"))

/-- `DataVisualization.handleSubmit`'s dispatch over a parsed payload (the
fallback hands the chosen value to the narration parser, which in JS receives
it as the string it is in practice). -/
def dvHandleSubmit (d : Json) (query : String) : DvOutcome :=
  if (d.getField "success").truthy then
    if guardAnalytics d then
      { apiResponse := .str (dvAnalyticsText d)
        vizUpdate := some (parseEventAnalyticsResponse (d.getField "results")) }
    else if guardFormatted d then
      { apiResponse := (d.getField "results").getField "formattedMessage"
        vizUpdate :=
          if ((d.getField "results").getField "analyticsData").truthy then
            some (parseStructuredApiResponse (d.getField "results") query)
          else none }
    else if guardAnswer d then
      { apiResponse := ((d.getField "results").getField "answer").getField "summary"
        vizUpdate := some (parseStructuredApiResponse (d.getField "results") query) }
    else
      { apiResponse := renderFallback d
        vizUpdate := some (parseApiResponseForVisualization (jsToString (renderFallback d)) query) }
  else { apiResponse := renderError d, vizUpdate := none }

/-! ## Chat proxy API route (`POST /api/chat`) -/

/-- What the forwarded `fetch` can come back with: a network-level throw (with
the thrown message), or a response with an HTTP status whose `json()` either
parses or throws. -/
inductive BackendOutcome where
  | netErr (msg : String) : BackendOutcome
  | reply (status : Nat) (body : Except String Json) : BackendOutcome

/-- The route's `NextResponse`: status, JSON body, and how many backend
`fetch` attempts the run made. -/
structure RouteReply where
  status : Nat
  body : Json
  attempts : Nat

/-- The `catch` envelope `{success: false, error: 'Internal server error',
details: <thrown message>}`. -/
def internalErrBody (msg : String) : Json :=
  .obj [("success", .bool false), ("error", .str "Internal server error"),
        ("details", .str msg)]

/-- The 400 body `{success: false, error: 'Message is required'}`. -/
def msgRequiredBody : Json :=
  .obj [("success", .bool false), ("error", .str "Message is required")]

/-- The non-2xx wrap `{success: false, error: "Backend error: ...",
details: backendData}`. -/
def backendErrBody (backendData : Json) : Json :=
  .obj [("success", .bool false),
        ("error", .str ("Backend error: "
          ++ jsToString (jsOr (backendData.getField "error") (.str "Unknown error")))),
        ("details", backendData)]

/-- The message of the TypeError thrown by
`const { message, ... } = body` when `body` is nullish (the exact text is
runtime-determined; the model fixes one rendering). -/
def destructureNullMsg : String :=
  "Cannot destructure property 'message' of 'body' as it is null."

/-- `!message || typeof message !== 'string'`, negated: a truthy string. -/
def validMsg (body : Json) : Bool :=
  (body.getField "message").truthy && (body.getField "message").isStr

/-- The body's remaining fields (`...otherParams`). -/
def restParams (body : Json) (dropped : List String) : Json :=
  .obj (body.asFields.filter (fun kv => !(dropped.contains kv.1)))

/-- The payload forwarded to the Python backend. -/
def forwardPayload (body : Json) : Json :=
  .obj [("message", .str (trimStr (jsToString (body.getField "message")))),
        ("conversation_id", body.getField "conversation_id"),
        ("userId", body.getField "userId"),
        ("context", restParams body ["message", "conversation_id", "userId"])]

/-- `response.ok`: HTTP status in 200..299. -/
def is2xx (status : Nat) : Bool := 200 ≤ status && status ≤ 299

/-- The chat route's `POST` handler.  `reqBody` is `request.json()` (its
`Except.error` is the thrown parse error); `backend` maps the forwarded
payload to the fetch's outcome.  The single `fetch` of the source is counted
in `attempts`.  The source destructures
`const { message, conversation_id, userId, ...otherParams } = body` before
validating, so a nullish parsed body (a POST body of literal `null`) throws
there and the `catch` answers 500 — before the 400 validation and before any
backend contact. -/
def chatRoutePOST (reqBody : Except String Json) (backend : Json → BackendOutcome) :
    RouteReply :=
  match reqBody with
  | .error msg => { status := 500, body := internalErrBody msg, attempts := 0 }
  | .ok body =>
    if body.isNullish then
      { status := 500, body := internalErrBody destructureNullMsg, attempts := 0 }
    else if !validMsg body then
      { status := 400, body := msgRequiredBody, attempts := 0 }
    else
      match backend (forwardPayload body) with
      | .netErr msg => { status := 500, body := internalErrBody msg, attempts := 1 }
      | .reply _ (.error msg) =>
        { status := 500, body := internalErrBody msg, attempts := 1 }
      | .reply status (.ok backendData) =>
        if is2xx status then { status := 200, body := backendData, attempts := 1 }
        else { status := status, body := backendErrBody backendData, attempts := 1 }

/-! ## Concrete inputs used by witnesses and the C3 counterexample -/

/-- Bool form of "the entry's `total_events` is a positive number" (the
claim's "input entries with `total_events > 0`"). -/
def posTE (e : Json) : Bool :=
  match e.getField "total_events" with
  | .num n => decide (0 < n)
  | _ => false

/-- The spec's event-analytics scenario entry (`added_to_lists`, 86 events). -/
def scenarioEntry : Json :=
  .obj [("event_name", .str "added_to_lists"), ("event_source", .str "contacts"),
        ("total_events", .num 86), ("unique_contacts", .num 79),
        ("first_event", .num 1700000000000), ("last_event", .num 1700500000000)]

/-- The spec's event-analytics scenario `results` object. -/
def scenarioResults : Json :=
  .obj [("organization_id", .num 123), ("timeframe", .str "7d"),
        ("analytics", .arr [scenarioEntry]), ("total_event_types", .num 1)]

/-- A payload on which several Normalizer branches structurally match
(`formattedMessage` and `summary` both present). -/
def multiMatchPayload : Json :=
  .obj [("success", .bool true),
        ("results", .obj [("formattedMessage", .str "FORMATTED"), ("summary", .str "SUMMARY")])]

/-- Narration with the same event name parsed twice (counts 100 and 150). -/
def dupNarration : String :=
  "1. **added_to_lists** (Source: contacts)\n   - Events: 100\n"
  ++ "2. **added_to_lists** (Source: contacts)\n   - Events: 150"

/-- The mapper output of `dupNarration`: one record, the higher count. -/
def dupNarrationViz : VisualizationData :=
  { vtype := "analytics"
    events := [{ name := "added to lists", count := some 150, source := .str "contacts",
                 uniqueContacts := none, firstEvent := none, lastEvent := none }]
    organizationScope := "global"
    timeframe := .str "7d" }

/-- A valid chat request body. -/
def c3Body : Json := .obj [("message", .str "hello")]

/-- The backend body of the C3 counterexample's run. -/
def c3Data : Json := .obj [("result", .str "created")]

/-- A backend that answers every forwarded payload with HTTP 201. -/
def c3Backend : Json → BackendOutcome := fun _ => .reply 201 (.ok c3Data)

/-- A backend for the C10 counterexample's run (never reached there). -/
def c10Backend : Json → BackendOutcome := fun _ => .netErr "unreached"

/-- A two-record visualization state for the truncation witness. -/
def vizTwo : VisualizationData :=
  { vtype := "analytics"
    events := [{ name := "a", count := some 5, source := .str "s",
                 uniqueContacts := none, firstEvent := none, lastEvent := none },
               { name := "b", count := some 3, source := .str "s",
                 uniqueContacts := none, firstEvent := none, lastEvent := none }]
    organizationScope := "global"
    timeframe := .str "7d" }

/-! ## Theorems -/

/-- Sorting is a permutation (JS's in-place `sort` reorders, never drops). -/
lemma sortEventsDesc_perm (l : List EventData) : List.Perm (sortEventsDesc l) l :=
  List.perm_insertionSort evRel l

/-- Sorting yields a descending-by-count list. -/
lemma sortEventsDesc_sorted (l : List EventData) : List.Sorted evRel (sortEventsDesc l) :=
  List.sorted_insertionSort evRel l

/-- Unpacking `posTE`. -/
lemma posTE_num {e : Json} (h : posTE e = true) :
    ∃ n : Int, e.getField "total_events" = Json.num n ∧ 0 < n := by
  cases hf : e.getField "total_events" <;> simp only [posTE, hf] at h <;>
    first
    | exact absurd h Bool.false_ne_true
    | exact ⟨_, rfl, of_decide_eq_true h⟩

/-- A positive numeric `total_events` maps to that count. -/
lemma analyticsRecordOf_count {e : Json} {n : Int}
    (hf : e.getField "total_events" = Json.num n) (hn : n ≠ 0) :
    (analyticsRecordOf e).count = some n := by
  show parseIntJS (jsOr (e.getField "total_events") (Json.num 0)) = some n
  rw [hf]
  unfold jsOr
  simp [Json.truthy, hn, parseIntJS]

/-- Unpacking `jsPos`. -/
lemma jsPos_spec {o : Option Int} (h : jsPos o = true) : ∃ n, o = some n ∧ 0 < n := by
  cases o with
  | none => exact absurd h Bool.false_ne_true
  | some n => exact ⟨n, rfl, of_decide_eq_true h⟩

/-- C2: on a non-empty `analytics` array whose entries all carry a positive
numeric `total_events`, the Mapper produces the full entry list mapped by the
source's record transformation (so: underscores-to-spaces name, count =
`total_events`, source/uniqueContacts/first/last from the entry), sorted
descending by count, of length equal to the number of entries with
`total_events > 0`. -/
theorem c2_event_analytics_mapper (results : Json) (entries : List Json)
    (harr : results.getField "analytics" = Json.arr entries)
    (hpos : entries.all posTE = true)
    (hne : entries.isEmpty = false) :
    ∃ v, parseEventAnalyticsResponse results = some v
      ∧ List.Perm v.events (entries.map analyticsRecordOf)
      ∧ List.Sorted evRel v.events
      ∧ v.events.length = entries.countP posTE
      ∧ v.events.length = entries.length := by
  have hall : ∀ ev ∈ entries.map analyticsRecordOf, jsPos ev.count = true := by
    intro ev hev
    rcases List.mem_map.mp hev with ⟨e, he, rfl⟩
    rcases posTE_num (List.all_eq_true.mp hpos e he) with ⟨n, hf, hn⟩
    rw [analyticsRecordOf_count hf (by omega)]
    exact decide_eq_true hn
  have hfe :
      (entries.map analyticsRecordOf).filter (fun ev => jsPos ev.count)
        = entries.map analyticsRecordOf :=
    List.filter_eq_self.mpr hall
  have hne' : (entries.map analyticsRecordOf).isEmpty = false := by
    cases entries with
    | nil => simp at hne
    | cons a l => simp
  refine ⟨{ vtype := "analytics"
            events := sortEventsDesc (entries.map analyticsRecordOf)
            organizationScope :=
              if (results.getField "organization_id").truthy then "specific" else "global"
            timeframe := jsOr (results.getField "timeframe") (Json.str "7d") },
          ?_, sortEventsDesc_perm _, sortEventsDesc_sorted _, ?_, ?_⟩
  · unfold parseEventAnalyticsResponse
    simp only [harr]
    rw [hfe]
    simp [hne']
  · rw [(sortEventsDesc_perm _).length_eq, List.length_map,
      List.countP_eq_length.mpr (List.all_eq_true.mp hpos)]
  · rw [(sortEventsDesc_perm _).length_eq, List.length_map]

/-- C2 witness at the spec's scenario payload. -/
theorem c2_event_analytics_mapper_witness :
    ∃ v, parseEventAnalyticsResponse scenarioResults = some v
      ∧ List.Perm v.events ([scenarioEntry].map analyticsRecordOf)
      ∧ List.Sorted evRel v.events
      ∧ v.events.length = [scenarioEntry].countP posTE
      ∧ v.events.length = [scenarioEntry].length :=
  c2_event_analytics_mapper scenarioResults [scenarioEntry] rfl (by decide) rfl

/-! ### Deduplication lemmas (the `reduce` of the narration path) -/

lemma jsGtNum_irrefl (a : Option Int) : jsGtNum a a = false := by
  cases a <;> simp [jsGtNum]

/-- `¬ x > r` and `c > r` give `¬ x > c` (the running maximum stays one). -/
lemma jsGtNum_chain {x r c : Option Int}
    (h1 : jsGtNum x r = false) (h2 : jsGtNum c r = true) : jsGtNum x c = false := by
  cases c with
  | none => exact absurd h2 (by simp [jsGtNum])
  | some cv =>
    cases r with
    | none => exact absurd h2 (by simp [jsGtNum])
    | some rv =>
      cases x with
      | none => rfl
      | some xv =>
        simp only [jsGtNum, decide_eq_true_eq, decide_eq_false_iff_not] at h1 h2 ⊢
        omega

lemma rfb_weak_mem {acc : List EventData} {cur r : EventData}
    (h : r ∈ replaceFirstByName acc cur) : r = cur ∨ r ∈ acc := by
  induction acc with
  | nil => simp [replaceFirstByName] at h
  | cons e es ih =>
    unfold replaceFirstByName at h
    split at h
    next =>
      rcases List.mem_cons.mp h with rfl | h
      · exact Or.inl rfl
      · exact Or.inr (List.mem_cons_of_mem _ h)
    next =>
      rcases List.mem_cons.mp h with rfl | h
      · exact Or.inr (List.mem_cons_self _ _)
      · rcases ih h with rfl | h
        · exact Or.inl rfl
        · exact Or.inr (List.mem_cons_of_mem _ h)

lemma rfb_map_name (acc : List EventData) (cur : EventData) :
    (replaceFirstByName acc cur).map (fun r => r.name) = acc.map (fun r => r.name) := by
  induction acc with
  | nil => rfl
  | cons e es ih =>
    unfold replaceFirstByName
    split
    next heq =>
      have : e.name = cur.name := eq_of_beq heq
      simp [this]
    next => simp [ih]

lemma rfb_self_mem {acc : List EventData} {cur : EventData}
    (h : ∃ e ∈ acc, (e.name == cur.name) = true) :
    cur ∈ replaceFirstByName acc cur := by
  induction acc with
  | nil => rcases h with ⟨e, he, _⟩; simp at he
  | cons e es ih =>
    unfold replaceFirstByName
    split
    next => exact List.mem_cons_self _ _
    next hne =>
      rcases h with ⟨e', he', hbeq⟩
      rcases List.mem_cons.mp he' with rfl | he'
      · exact absurd hbeq hne
      · exact List.mem_cons_of_mem _ (ih ⟨e', he', hbeq⟩)

lemma rfb_mem_of_ne_name {acc : List EventData} {cur e : EventData}
    (he : e ∈ acc) (hne : (e.name == cur.name) = false) :
    e ∈ replaceFirstByName acc cur := by
  induction acc with
  | nil => simp at he
  | cons e₀ es ih =>
    unfold replaceFirstByName
    split
    next heq =>
      rcases List.mem_cons.mp he with rfl | he
      · exact absurd heq (by simp [hne])
      · exact List.mem_cons_of_mem _ he
    next =>
      rcases List.mem_cons.mp he with rfl | he
      · exact List.mem_cons_self _ _
      · exact List.mem_cons_of_mem _ (ih he)

/-- With distinct names, the only record of the replaced list carrying the
replaced name is the replacement itself. -/
lemma rfb_name_eq_cur {acc : List EventData} {cur r : EventData}
    (hnd : (acc.map (fun r => r.name)).Nodup)
    (hex : ∃ e ∈ acc, e.name = cur.name)
    (hr : r ∈ replaceFirstByName acc cur) (hname : r.name = cur.name) : r = cur := by
  induction acc with
  | nil => rcases hex with ⟨e, he, _⟩; simp at he
  | cons e es ih =>
    have hnd' : (es.map (fun r => r.name)).Nodup ∧ e.name ∉ es.map (fun r => r.name) := by
      rw [List.map_cons, List.nodup_cons] at hnd
      exact ⟨hnd.2, hnd.1⟩
    unfold replaceFirstByName at hr
    split at hr
    next heq =>
      rcases List.mem_cons.mp hr with rfl | hr
      · rfl
      · exfalso
        have hmem : r.name ∈ es.map (fun r => r.name) := List.mem_map_of_mem _ hr
        rw [hname, ← eq_of_beq heq] at hmem
        exact hnd'.2 hmem
    next hne =>
      rcases List.mem_cons.mp hr with rfl | hr
      · exact absurd (by simp [hname] : (r.name == cur.name) = true) hne
      · refine ih hnd'.1 ?_ hr
        rcases hex with ⟨e', he', hn'⟩
        rcases List.mem_cons.mp he' with rfl | he'
        · exact absurd (by simp [hn'] : (e'.name == cur.name) = true) hne
        · exact ⟨e', he', hn'⟩

lemma nodup_name_inj {l : List EventData} (h : (l.map (fun r => r.name)).Nodup)
    {a b : EventData} (ha : a ∈ l) (hb : b ∈ l) (hn : a.name = b.name) : a = b :=
  List.inj_on_of_nodup_map h ha hb hn

/-- One `reduce` step maintains the deduplication invariant: the accumulator's
records come from what was processed, each carries a maximal count among the
same-named processed records, every processed name is represented, and names
are distinct. -/
lemma dedupStep_inv (acc processed : List EventData) (cur : EventData)
    (h1 : ∀ r ∈ acc, r ∈ processed)
    (h2 : ∀ r ∈ acc, ∀ r' ∈ processed, r'.name = r.name → jsGtNum r'.count r.count = false)
    (h3 : ∀ r' ∈ processed, ∃ r ∈ acc, r.name = r'.name)
    (h4 : (acc.map (fun r => r.name)).Nodup) :
    (∀ r ∈ dedupStep acc cur, r ∈ processed ++ [cur])
    ∧ (∀ r ∈ dedupStep acc cur, ∀ r' ∈ processed ++ [cur],
        r'.name = r.name → jsGtNum r'.count r.count = false)
    ∧ (∀ r' ∈ processed ++ [cur], ∃ r ∈ dedupStep acc cur, r.name = r'.name)
    ∧ (((dedupStep acc cur).map (fun r => r.name)).Nodup) := by
  unfold dedupStep
  cases hfind : acc.find? (fun e => e.name == cur.name) with
  | none =>
    have hnocc : ∀ e ∈ acc, e.name ≠ cur.name := by
      intro e he h
      have := List.find?_eq_none.mp hfind e he
      simp [h] at this
    refine ⟨?_, ?_, ?_, ?_⟩
    · intro r hr
      rcases List.mem_append.mp hr with h | h
      · exact List.mem_append.mpr (Or.inl (h1 r h))
      · exact List.mem_append.mpr (Or.inr h)
    · intro r hr r' hr' hname
      rcases List.mem_append.mp hr with h | h
      · rcases List.mem_append.mp hr' with h' | h'
        · exact h2 r h r' h' hname
        · have hc' : r' = cur := by simpa using h'
          rw [hc'] at hname
          exact absurd hname.symm (hnocc r h)
      · have hc : r = cur := by simpa using h
        rcases List.mem_append.mp hr' with h' | h'
        · rcases h3 r' h' with ⟨e, he, hen⟩
          rw [hc] at hname
          exact absurd (hen.trans hname) (hnocc e he)
        · have hc' : r' = cur := by simpa using h'
          rw [hc, hc']
          exact jsGtNum_irrefl _
    · intro r' hr'
      rcases List.mem_append.mp hr' with h' | h'
      · rcases h3 r' h' with ⟨e, he, hen⟩
        exact ⟨e, List.mem_append.mpr (Or.inl he), hen⟩
      · have hc' : r' = cur := by simpa using h'
        exact ⟨cur, List.mem_append.mpr (Or.inr (by simp)), by rw [hc']⟩
    · rw [List.map_append]
      refine List.Nodup.append h4 (by simp) ?_
      intro a ha hb
      rcases List.mem_map.mp ha with ⟨e, he, rfl⟩
      have : e.name = cur.name := by simpa using hb
      exact hnocc e he this
  | some ex =>
    dsimp only
    have hex_mem : ex ∈ acc := List.mem_of_find?_eq_some hfind
    have hex_beq : (ex.name == cur.name) = true := by
      have h := List.find?_some hfind
      simpa using h
    have hexn : ex.name = cur.name := eq_of_beq hex_beq
    by_cases hgt : jsGtNum cur.count ex.count = true
    · rw [if_pos hgt]
      refine ⟨?_, ?_, ?_, ?_⟩
      · intro r hr
        rcases rfb_weak_mem hr with rfl | h
        · exact List.mem_append.mpr (Or.inr (by simp))
        · exact List.mem_append.mpr (Or.inl (h1 r h))
      · intro r hr r' hr' hname
        by_cases hrc : r = cur
        · rcases List.mem_append.mp hr' with h' | h'
          · have hne : jsGtNum r'.count ex.count = false :=
              h2 ex hex_mem r' h' (by rw [hname, hrc, ← hexn])
            rw [hrc]
            exact jsGtNum_chain hne hgt
          · have hc' : r' = cur := by simpa using h'
            rw [hc', hrc]
            exact jsGtNum_irrefl _
        · have hr_acc : r ∈ acc := by
            rcases rfb_weak_mem hr with h | h
            · exact absurd h hrc
            · exact h
          have hrname : r.name ≠ cur.name := by
            intro hn
            exact hrc (rfb_name_eq_cur h4 ⟨ex, hex_mem, hexn⟩ hr hn)
          rcases List.mem_append.mp hr' with h' | h'
          · exact h2 r hr_acc r' h' hname
          · have hc' : r' = cur := by simpa using h'
            rw [hc'] at hname
            exact absurd hname.symm hrname
      · intro r' hr'
        rcases List.mem_append.mp hr' with h' | h'
        · rcases h3 r' h' with ⟨e, he, hen⟩
          by_cases hcase : (e.name == cur.name) = true
          · exact ⟨cur, rfb_self_mem ⟨e, he, hcase⟩, (eq_of_beq hcase) ▸ hen⟩
          · exact ⟨e, rfb_mem_of_ne_name he (by simpa using hcase), hen⟩
        · have hc' : r' = cur := by simpa using h'
          exact ⟨cur, rfb_self_mem ⟨ex, hex_mem, hex_beq⟩, by rw [hc']⟩
      · rw [rfb_map_name]
        exact h4
    · rw [if_neg hgt]
      have hgt' : jsGtNum cur.count ex.count = false := by
        cases hx : jsGtNum cur.count ex.count
        · rfl
        · exact absurd hx hgt
      refine ⟨?_, ?_, ?_, ?_⟩
      · intro r hr
        exact List.mem_append.mpr (Or.inl (h1 r hr))
      · intro r hr r' hr' hname
        rcases List.mem_append.mp hr' with h' | h'
        · exact h2 r hr r' h' hname
        · have hc' : r' = cur := by simpa using h'
          have hrex : r = ex := by
            refine nodup_name_inj h4 hr hex_mem ?_
            rw [hexn, ← hname, hc']
          rw [hc', hrex]
          exact hgt'
      · intro r' hr'
        rcases List.mem_append.mp hr' with h' | h'
        · exact h3 r' h'
        · have hc' : r' = cur := by simpa using h'
          exact ⟨ex, hex_mem, by rw [hc', hexn]⟩
      · exact h4

/-- The deduplication fold maintains the invariant over the whole rest. -/
lemma dedup_go (rest : List EventData) :
    ∀ (acc processed : List EventData),
    (∀ r ∈ acc, r ∈ processed) →
    (∀ r ∈ acc, ∀ r' ∈ processed, r'.name = r.name → jsGtNum r'.count r.count = false) →
    (∀ r' ∈ processed, ∃ r ∈ acc, r.name = r'.name) →
    ((acc.map (fun r => r.name)).Nodup) →
    (∀ r ∈ rest.foldl dedupStep acc, r ∈ processed ++ rest)
    ∧ (∀ r ∈ rest.foldl dedupStep acc, ∀ r' ∈ processed ++ rest,
        r'.name = r.name → jsGtNum r'.count r.count = false)
    ∧ (∀ r' ∈ processed ++ rest, ∃ r ∈ rest.foldl dedupStep acc, r.name = r'.name)
    ∧ (((rest.foldl dedupStep acc).map (fun r => r.name)).Nodup) := by
  induction rest with
  | nil =>
    intro acc processed h1 h2 h3 h4
    simpa using ⟨h1, h2, h3, h4⟩
  | cons cur rest ih =>
    intro acc processed h1 h2 h3 h4
    obtain ⟨k1, k2, k3, k4⟩ := dedupStep_inv acc processed cur h1 h2 h3 h4
    have hrec := ih (dedupStep acc cur) (processed ++ [cur]) k1 k2 k3 k4
    rw [List.append_cons]
    simpa [List.foldl_cons] using hrec

/-- The deduplicated list: a sublist of representatives — one per name, each
carrying a maximal count among its duplicates. -/
lemma dedupEvents_spec (l : List EventData) :
    (∀ r ∈ dedupEvents l, r ∈ l)
    ∧ (∀ r ∈ dedupEvents l, ∀ r' ∈ l, r'.name = r.name → jsGtNum r'.count r.count = false)
    ∧ (∀ r' ∈ l, ∃ r ∈ dedupEvents l, r.name = r'.name)
    ∧ (((dedupEvents l).map (fun r => r.name)).Nodup) := by
  have h := dedup_go l [] [] (by simp) (by simp) (by simp) (by simp)
  simpa [dedupEvents] using h

/-! ### Narration scanner invariant -/

/-- The in-progress `currentEvent` carries count `0` (just created) or the
last accepted positive count. -/
def CurOK : Option CurEv → Prop
  | none => True
  | some c => c.count = some 0 ∨ ∃ n : Int, c.count = some n ∧ 0 < n

lemma pushCompleted_good {evts : List EventData} {cur : Option CurEv}
    (h1 : ∀ r ∈ evts, ∃ n : Int, r.count = some n ∧ 0 < n) (h2 : CurOK cur) :
    ∀ r ∈ pushCompleted evts cur, ∃ n : Int, r.count = some n ∧ 0 < n := by
  intro r hr
  cases cur with
  | none => exact h1 r hr
  | some c =>
    unfold pushCompleted at hr
    dsimp only at hr
    by_cases hcond : (c.name != "" && jsNumTruthy c.count) = true
    · rw [if_pos hcond] at hr
      rcases List.mem_append.mp hr with h | h
      · exact h1 r h
      · have hrr : r = { name := c.name, count := c.count, source := .str c.source,
                         uniqueContacts := none, firstEvent := none, lastEvent := none } := by
          simpa using h
        have hcount : jsNumTruthy c.count = true := by
          simp only [Bool.and_eq_true] at hcond
          exact hcond.2
        have h2' : c.count = some 0 ∨ ∃ n : Int, c.count = some n ∧ 0 < n := h2
        rcases h2' with h0 | ⟨n, hn, hp⟩
        · rw [h0] at hcount
          simp [jsNumTruthy] at hcount
        · exact ⟨n, by rw [hrr]; exact hn, hp⟩
    · rw [if_neg hcond] at hr
      exact h1 r hr

/-- The scanner step yields the old state, a pushed-state with a fresh
`currentEvent` of count `0`, or the state with a positive count recorded. -/
lemma scanStep_cases (st : List EventData × Option CurEv) (line : String) :
    scanStep st line = st
    ∨ (∃ nm src, scanStep st line
        = (pushCompleted st.1 st.2, some { name := nm, source := src, count := some 0 }))
    ∨ (∃ c k, st.2 = some c ∧ 0 < k ∧ scanStep st line
        = (st.1, some { name := c.name, source := c.source, count := some (k : Int) })) := by
  simp only [scanStep]
  split
  next => exact Or.inl rfl
  next =>
    split
    next => exact Or.inr (Or.inl ⟨_, _, rfl⟩)
    next =>
      split
      next =>
        split
        next heq =>
          split
          next hname =>
            split
            next hk => exact Or.inr (Or.inr ⟨_, _, heq, by exact_mod_cast hk, rfl⟩)
            next => exact Or.inl rfl
          next => exact Or.inl rfl
        next => exact Or.inl rfl
      next => exact Or.inl rfl

lemma scanStep_good (st : List EventData × Option CurEv) (line : String)
    (h1 : ∀ r ∈ st.1, ∃ n : Int, r.count = some n ∧ 0 < n) (h2 : CurOK st.2) :
    (∀ r ∈ (scanStep st line).1, ∃ n : Int, r.count = some n ∧ 0 < n)
    ∧ CurOK (scanStep st line).2 := by
  rcases scanStep_cases st line with heq | ⟨nm, src, heq⟩ | ⟨c, k, _, hk, heq⟩ <;> rw [heq]
  · exact ⟨h1, h2⟩
  · exact ⟨pushCompleted_good h1 h2, Or.inl rfl⟩
  · exact ⟨h1, Or.inr ⟨k, rfl, hk⟩⟩

lemma scanFold_good (lines : List String) :
    ∀ st : List EventData × Option CurEv,
    (∀ r ∈ st.1, ∃ n : Int, r.count = some n ∧ 0 < n) → CurOK st.2 →
    (∀ r ∈ (lines.foldl scanStep st).1, ∃ n : Int, r.count = some n ∧ 0 < n)
    ∧ CurOK (lines.foldl scanStep st).2 := by
  induction lines with
  | nil => intro st h1 h2; exact ⟨h1, h2⟩
  | cons line rest ih =>
    intro st h1 h2
    have hstep := scanStep_good st line h1 h2
    simpa [List.foldl_cons] using ih (scanStep st line) hstep.1 hstep.2

/-- Every record the narration scanner pushes carries a positive count. -/
lemma narrationRaw_good (resp : String) :
    ∀ r ∈ narrationRaw resp, ∃ n : Int, r.count = some n ∧ 0 < n := by
  unfold narrationRaw
  have h := scanFold_good (splitLines resp) ([], none) (by simp) trivial
  exact pushCompleted_good h.1 h.2

/-- C4: every `EventRecord` any of the three Mapper paths hands to the chart
components carries a real (non-`NaN`), strictly positive — hence
non-negative — count: non-positive and unparseable counts are dropped before
the records reach the charts. -/
theorem c4_count_invariant (results : Json) (resp query : String) :
    (∀ v, parseEventAnalyticsResponse results = some v →
        ∀ r ∈ v.events, ∃ n : Int, r.count = some n ∧ 0 < n)
    ∧ (∀ v, parseStructuredApiResponse results query = some v →
        ∀ r ∈ v.events, ∃ n : Int, r.count = some n ∧ 0 < n)
    ∧ (∀ v, parseApiResponseForVisualization resp query = some v →
        ∀ r ∈ v.events, ∃ n : Int, r.count = some n ∧ 0 < n) := by
  refine ⟨?_, ?_, ?_⟩
  · intro v hv r hr
    unfold parseEventAnalyticsResponse at hv
    cases hf : results.getField "analytics" <;> simp only [hf] at hv <;>
      first
      | exact Option.noConfusion hv
      | skip
    case arr entries =>
      split at hv
      next => exact Option.noConfusion hv
      next =>
        injection hv with hv'
        rw [← hv'] at hr
        have hr2 := (sortEventsDesc_perm _).mem_iff.mp hr
        exact jsPos_spec (List.mem_filter.mp hr2).2
  · intro v hv r hr
    unfold parseStructuredApiResponse at hv
    cases hf : results.getField "analyticsData" <;> simp only [hf] at hv <;>
      first
      | exact Option.noConfusion hv
      | skip
    case arr items =>
      rcases Bool.dichotomy
          (jsEqStr (jsOr (results.getField "queryType") (Json.str "count_by_type"))
            "source_analytics") with hq | hq <;>
        simp only [hq] at hv <;>
        simp only [Bool.false_eq_true, if_false, if_true] at hv <;>
        · split at hv
          next => exact Option.noConfusion hv
          next =>
            injection hv with hv'
            rw [← hv'] at hr
            have hr2 := (sortEventsDesc_perm _).mem_iff.mp hr
            exact jsPos_spec (List.mem_filter.mp hr2).2
  · intro v hv r hr
    unfold parseApiResponseForVisualization at hv
    dsimp only at hv
    split at hv
    next => exact Option.noConfusion hv
    next =>
      injection hv with hv'
      rw [← hv'] at hr
      have hr2 := (sortEventsDesc_perm _).mem_iff.mp hr
      exact narrationRaw_good resp r ((dedupEvents_spec (narrationRaw resp)).1 r hr2)

/-- C6: in the free-text narration path, the published record list holds at
most one record per name; each published record is one of the raw parsed
records and its count is maximal among all same-named raw records (so
duplicate parses keep the higher count), and every parsed name survives. -/
theorem c6_narration_dedup (resp query : String) (v : VisualizationData)
    (h : parseApiResponseForVisualization resp query = some v) :
    ((v.events.map (fun r => r.name)).Nodup)
    ∧ (∀ r ∈ v.events, r ∈ narrationRaw resp
        ∧ ∀ r' ∈ narrationRaw resp, r'.name = r.name → jsGtNum r'.count r.count = false)
    ∧ (∀ r' ∈ narrationRaw resp, ∃ r ∈ v.events, r.name = r'.name) := by
  have hv : v.events = sortEventsDesc (dedupEvents (narrationRaw resp)) := by
    unfold parseApiResponseForVisualization at h
    dsimp only at h
    split at h
    next => exact Option.noConfusion h
    next =>
      injection h with h'
      rw [← h']
  obtain ⟨d1, d2, d3, d4⟩ := dedupEvents_spec (narrationRaw resp)
  have hperm := sortEventsDesc_perm (dedupEvents (narrationRaw resp))
  refine ⟨?_, ?_, ?_⟩
  · rw [hv]
    exact ((hperm.map (fun r => r.name)).nodup_iff).mpr d4
  · intro r hr
    rw [hv] at hr
    have hr2 := hperm.mem_iff.mp hr
    exact ⟨d1 r hr2, d2 r hr2⟩
  · intro r' hr'
    rcases d3 r' hr' with ⟨r, hrm, hn⟩
    refine ⟨r, ?_, hn⟩
    rw [hv]
    exact hperm.mem_iff.mpr hrm

/-- C6 witness: the duplicate-name narration (counts 100 then 150) keeps one
record with the higher count. -/
theorem c6_narration_dedup_witness :
    ((dupNarrationViz.events.map (fun r => r.name)).Nodup)
    ∧ (∀ r ∈ dupNarrationViz.events, r ∈ narrationRaw dupNarration
        ∧ ∀ r' ∈ narrationRaw dupNarration, r'.name = r.name →
            jsGtNum r'.count r.count = false)
    ∧ (∀ r' ∈ narrationRaw dupNarration, ∃ r ∈ dupNarrationViz.events, r.name = r'.name) :=
  c6_narration_dedup dupNarration "q" dupNarrationViz rfl

/-- C1: the Normalizer's dispatch is exactly the fixed priority chain: a falsy
`success` yields the error line; otherwise the first branch (a)–(f) whose
guard holds produces the content — later branches are irrelevant once an
earlier one matched — and branch (g) is the fallback when none does. -/
theorem c1_normalizer_priority (d : Json) :
    ((d.getField "success").truthy = false → responseContentOf d = renderError d)
    ∧ ((d.getField "success").truthy = true → guardFormatted d = true →
        responseContentOf d = (d.getField "results").getField "formattedMessage")
    ∧ ((d.getField "success").truthy = true → guardFormatted d = false →
        guardTrends d = true → responseContentOf d = renderTrends d)
    ∧ ((d.getField "success").truthy = true → guardFormatted d = false →
        guardTrends d = false → guardAnalytics d = true →
        responseContentOf d = renderAnalytics d)
    ∧ ((d.getField "success").truthy = true → guardFormatted d = false →
        guardTrends d = false → guardAnalytics d = false → guardAnswer d = true →
        responseContentOf d = renderAnswer d)
    ∧ ((d.getField "success").truthy = true → guardFormatted d = false →
        guardTrends d = false → guardAnalytics d = false → guardAnswer d = false →
        guardWorkflow d = true → responseContentOf d = renderWorkflow d)
    ∧ ((d.getField "success").truthy = true → guardFormatted d = false →
        guardTrends d = false → guardAnalytics d = false → guardAnswer d = false →
        guardWorkflow d = false → guardSummary d = true →
        responseContentOf d = renderGeneric d)
    ∧ ((d.getField "success").truthy = true → guardFormatted d = false →
        guardTrends d = false → guardAnalytics d = false → guardAnswer d = false →
        guardWorkflow d = false → guardSummary d = false →
        responseContentOf d = renderFallback d) := by
  refine ⟨?_, ?_, ?_, ?_, ?_, ?_, ?_, ?_⟩ <;>
    · intros
      simp only [responseContentOf, *]
      simp [*]

/-- C1 at the claim's edge case: `formattedMessage` and `summary` both
present, `formattedMessage` wins verbatim. -/
theorem c1_normalizer_priority_witness :
    responseContentOf multiMatchPayload = Json.str "FORMATTED" :=
  ((c1_normalizer_priority multiMatchPayload).2.1 rfl rfl).trans rfl

/-- A body that passes validation destructured without throwing: its
`message` field is truthy, which a nullish body's cannot be. -/
lemma validMsg_not_nullish {body : Json} (h : validMsg body = true) :
    body.isNullish = false := by
  cases body <;>
    first
    | rfl
    | exact absurd h (by decide)

/-- C3 counterexample: the backend answers a 2xx status that is not 200
(HTTP 201); the route returns the body with status 200, not the backend's
status — the claim's "relays the backend's status code unchanged" fails. -/
theorem c3_relay_counterexample :
    c3Backend (forwardPayload c3Body) = .reply 201 (.ok c3Data)
    ∧ (chatRoutePOST (.ok c3Body) c3Backend).status = 200
    ∧ (chatRoutePOST (.ok c3Body) c3Backend).status ≠ 201 :=
  ⟨rfl, rfl, by decide⟩

/-- C3 (amended): on a 2xx backend response the route relays the body with
status 200 (not the backend's own 2xx status); a non-2xx response yields the
`{success:false, error, details}` envelope with the backend's status; a
thrown network call or `json()` yields that envelope with 500; and at most —
and, once validation passes, exactly — one backend attempt is made. -/
theorem c3_proxy_relay (reqBody : Except String Json) (backend : Json → BackendOutcome) :
    ((chatRoutePOST reqBody backend).attempts ≤ 1)
    ∧ (∀ msg, reqBody = .error msg →
        chatRoutePOST reqBody backend = { status := 500, body := internalErrBody msg, attempts := 0 })
    ∧ (∀ body, reqBody = .ok body → validMsg body = true →
        (∀ status data, backend (forwardPayload body) = .reply status (.ok data) →
            is2xx status = true →
            chatRoutePOST reqBody backend = { status := 200, body := data, attempts := 1 })
        ∧ (∀ status data, backend (forwardPayload body) = .reply status (.ok data) →
            is2xx status = false →
            chatRoutePOST reqBody backend
              = { status := status, body := backendErrBody data, attempts := 1 })
        ∧ (∀ msg, backend (forwardPayload body) = .netErr msg →
            chatRoutePOST reqBody backend
              = { status := 500, body := internalErrBody msg, attempts := 1 })
        ∧ (∀ status msg, backend (forwardPayload body) = .reply status (.error msg) →
            chatRoutePOST reqBody backend
              = { status := 500, body := internalErrBody msg, attempts := 1 })) := by
  refine ⟨?_, ?_, ?_⟩
  · cases reqBody with
    | error msg => simp [chatRoutePOST]
    | ok body =>
      by_cases hnull : body.isNullish = true
      · simp [chatRoutePOST, hnull]
      · by_cases hv : validMsg body
        · cases hb : backend (forwardPayload body) with
          | netErr msg => simp [chatRoutePOST, hnull, hv, hb]
          | reply status bodyE =>
            cases bodyE with
            | error msg => simp [chatRoutePOST, hnull, hv, hb]
            | ok data =>
              by_cases h2 : is2xx status <;> simp [chatRoutePOST, hnull, hv, hb, h2]
        · simp [chatRoutePOST, hnull, hv]
  · intro msg hmsg
    subst hmsg
    rfl
  · intro body hbody hv
    subst hbody
    have hnull : body.isNullish = false := validMsg_not_nullish hv
    refine ⟨?_, ?_, ?_, ?_⟩
    · intro status data hb h2
      simp [chatRoutePOST, hnull, hv, hb, h2]
    · intro status data hb h2
      simp [chatRoutePOST, hnull, hv, hb, h2]
    · intro msg hb
      simp [chatRoutePOST, hnull, hv, hb]
    · intro status msg hb
      simp [chatRoutePOST, hnull, hv, hb]

/-- C5: an empty `analytics` array — and in general any entry list whose
mapped records are all filtered out — makes the Mapper set the visualization
state to null (`none`), and a `some` result never carries an empty record
list. -/
theorem c5_empty_analytics_no_data (results : Json) :
    (results.getField "analytics" = Json.arr [] → parseEventAnalyticsResponse results = none)
    ∧ (∀ entries, results.getField "analytics" = Json.arr entries →
        ((entries.map analyticsRecordOf).filter (fun ev => jsPos ev.count)).isEmpty = true →
        parseEventAnalyticsResponse results = none)
    ∧ (∀ v, parseEventAnalyticsResponse results = some v → v.events ≠ []) := by
  refine ⟨?_, ?_, ?_⟩
  · intro h
    simp [parseEventAnalyticsResponse, h]
  · intro entries h hemp
    simp only [parseEventAnalyticsResponse, h, hemp]
    simp
  · intro v hv
    unfold parseEventAnalyticsResponse at hv
    cases hf : results.getField "analytics" <;> simp only [hf] at hv <;>
      first
      | exact Option.noConfusion hv
      | skip
    case arr entries =>
      split at hv
      next hemp => simp at hv
      next hemp =>
        injection hv with hv'
        subst hv'
        intro hnil
        apply hemp
        simp only at hnil
        unfold sortEventsDesc at hnil
        have hperm := List.perm_insertionSort evRel
          ((entries.map analyticsRecordOf).filter (fun ev => jsPos ev.count))
        rw [List.isEmpty_iff]
        rw [hnil] at hperm
        exact hperm.symm.eq_nil

/-- C5 witness: the boundary payload `{analytics: []}` yields the explicit
no-data signal. -/
theorem c5_empty_analytics_no_data_witness :
    parseEventAnalyticsResponse (Json.obj [("analytics", Json.arr [])]) = none :=
  (c5_empty_analytics_no_data (Json.obj [("analytics", Json.arr [])])).1 rfl

/-- C7: `generateChartData` truncates the mapped record list at render time —
top 15 records for the pie/doughnut chart, top 20 for bar and line — while
the table view iterates the full untruncated list. -/
theorem c7_render_time_truncation (v : VisualizationData) (h : v.events.isEmpty = false) :
    generateChartData ChartType.pie (some v)
      = some { labels := (v.events.take 15).map (fun r => r.name)
               data := (v.events.take 15).map (fun r => r.count) }
    ∧ generateChartData ChartType.bar (some v)
      = some { labels := (v.events.take 20).map (fun r => r.name)
               data := (v.events.take 20).map (fun r => r.count) }
    ∧ generateChartData ChartType.line (some v)
      = some { labels := (v.events.take 20).map (fun r => r.name)
               data := (v.events.take 20).map (fun r => r.count) }
    ∧ tableRows (some v) = v.events := by
  refine ⟨?_, ?_, ?_, rfl⟩ <;> simp [generateChartData, h]

/-- C7 witness at a concrete two-record state. -/
theorem c7_render_time_truncation_witness :
    generateChartData ChartType.pie (some vizTwo)
      = some { labels := (vizTwo.events.take 15).map (fun r => r.name)
               data := (vizTwo.events.take 15).map (fun r => r.count) }
    ∧ generateChartData ChartType.bar (some vizTwo)
      = some { labels := (vizTwo.events.take 20).map (fun r => r.name)
               data := (vizTwo.events.take 20).map (fun r => r.count) }
    ∧ generateChartData ChartType.line (some vizTwo)
      = some { labels := (vizTwo.events.take 20).map (fun r => r.name)
               data := (vizTwo.events.take 20).map (fun r => r.count) }
    ∧ tableRows (some vizTwo) = vizTwo.events :=
  c7_render_time_truncation vizTwo rfl

/-- C8: a `{success:false, error:'Backend timeout'}` payload — whatever its
`results` field holds — makes both the chat Normalizer and the visualization
submit handler emit exactly the error line, and the handler invokes no Mapper
path (`vizUpdate = none`). -/
theorem c8_error_payload_exact (extra : Json) (query : String) :
    responseContentOf
        (Json.obj [("success", .bool false), ("error", .str "Backend timeout"), ("results", extra)])
      = Json.str "❌ **Error**: Backend timeout"
    ∧ dvHandleSubmit
        (Json.obj [("success", .bool false), ("error", .str "Backend timeout"), ("results", extra)])
        query
      = { apiResponse := Json.str "❌ **Error**: Backend timeout", vizUpdate := none } :=
  ⟨rfl, rfl⟩

/-- C9: the Normalizer is deterministic and wall-clock independent: the
content of the AI message built at any two instants is the same, namely
`responseContentOf` of the payload alone (the `Analysis generated` line reads
the payload's own `timestamp` field). -/
theorem c9_normalizer_deterministic (now₁ now₂ : Int) (d : Json) :
    (aiMessageOf now₁ d).content = (aiMessageOf now₂ d).content
    ∧ (aiMessageOf now₁ d).content = responseContentOf d :=
  ⟨rfl, rfl⟩

/-- C10 counterexample: a POST body of literal `null` is valid JSON, so
`request.json()` resolves; the pre-validation destructuring then throws and
the route answers 500 `Internal server error` — not the claimed 400
`Message is required` — without contacting the backend. -/
theorem c10_null_body_counterexample :
    chatRoutePOST (.ok Json.null) c10Backend
      = { status := 500, body := internalErrBody destructureNullMsg, attempts := 0 }
    ∧ (chatRoutePOST (.ok Json.null) c10Backend).status ≠ 400 :=
  ⟨rfl, by decide⟩

/-- C10 (amended): a nullish parsed body makes the pre-validation
destructuring throw, so the route answers 500 with the internal-error
envelope and zero backend attempts; for every other body, a missing,
non-string or empty `message` yields 400 `{success:false, error:'Message is
required'}` without contacting the backend, and a non-empty string `message`
is forwarded with exactly one backend attempt.  The route's acceptance check
is equivalent to "`message` is a non-empty string". -/
theorem c10_message_validation (body : Json) (backend : Json → BackendOutcome) :
    (body.isNullish = true →
        chatRoutePOST (.ok body) backend
          = { status := 500, body := internalErrBody destructureNullMsg, attempts := 0 })
    ∧ (body.isNullish = false → validMsg body = false →
        chatRoutePOST (.ok body) backend
          = { status := 400, body := msgRequiredBody, attempts := 0 })
    ∧ (validMsg body = true → (chatRoutePOST (.ok body) backend).attempts = 1)
    ∧ (validMsg body = true ↔ ∃ s, body.getField "message" = Json.str s ∧ s ≠ "") := by
  refine ⟨?_, ?_, ?_, ?_⟩
  · intro hn
    simp [chatRoutePOST, hn]
  · intro hn h
    simp [chatRoutePOST, hn, h]
  · intro h
    have hn : body.isNullish = false := validMsg_not_nullish h
    cases hb : backend (forwardPayload body) with
    | netErr msg => simp [chatRoutePOST, hn, h, hb]
    | reply status bodyE =>
      cases bodyE with
      | error msg => simp [chatRoutePOST, hn, h, hb]
      | ok data =>
        by_cases h2 : is2xx status <;> simp [chatRoutePOST, hn, h, hb, h2]
  · constructor
    · intro h
      unfold validMsg at h
      cases hm : body.getField "message" <;> rw [hm] at h <;>
        simp [Json.truthy, Json.isStr] at h
      case str s => exact ⟨s, rfl, h⟩
    · rintro ⟨s, hm, hs⟩
      unfold validMsg
      rw [hm]
      simp [Json.truthy, Json.isStr, hs]

end UnifiedAI
